import Mathlib

/-!
Shallow embedding of the Room Session Coordinator of the mqtt-chat
repository (src/components/ChatRoom.tsx, src/services/mqttService.ts,
src/App.tsx, src/types.ts), together with proofs about the embedded
operations.

Conventions of the embedding:
* JavaScript `Map` objects are modelled as association lists
  (`List (κ × α)`) with `jsSet` / `jsGet` / `jsDelete` / `jsSize`
  mirroring `Map.set` / `Map.get` / `Map.delete` / `Map.size`
  (insertion order preserved, `set` overwrites in place).
* JavaScript objects keyed by strings (the per-message reaction record)
  are modelled the same way; the object-spread update
  `{...obj, [k]: v}` has exactly the `jsSet` semantics.
* Wall-clock times (`Date.now()`) and freshly generated UUIDs are
  passed in as explicit parameters.
* Calls on the `MqttService` that publish to the broker are modelled as
  `Effect` values returned by the embedded handlers; the broker itself
  is outside the model.
-/

namespace MqttChat

/-! ### JS `Map` / string-keyed object model -/

/-- `Map.get` / object lookup: the entry with the given key, if any. -/
def jsGet {α : Type} : List (String × α) → String → Option α
  | [], _ => none
  | p :: ps, k => if p.1 = k then some p.2 else jsGet ps k

/-- `Map.set` / `{...obj, [k]: v}`: overwrite the entry with the given
key in place if present, otherwise append at the end (JS
insertion-order semantics; a `Map` holds at most one entry per key). -/
def jsSet {α : Type} : List (String × α) → String → α → List (String × α)
  | [], k, v => [(k, v)]
  | p :: ps, k, v =>
      if p.1 = k then (k, v) :: ps else p :: jsSet ps k v

/-- `Map.delete`. -/
def jsDelete {α : Type} (m : List (String × α)) (k : String) :
    List (String × α) :=
  m.filter (fun p => ¬ p.1 = k)

/-- `Map.size`. -/
def jsSize {α : Type} (m : List (String × α)) : Nat := m.length

/-- Key-membership test (`Map.has`). -/
def hasKey {α : Type} (m : List (String × α)) (k : String) : Bool :=
  m.any (fun p => p.1 = k)

/-- JS `a || b` on numbers (used as `onlineUsers.size || 1`): the
left operand unless it is falsy (zero). -/
def jsOrInt (a b : Int) : Int := if a = 0 then b else a

/-! ### Data model (src/types.ts) -/

/-- `UserProfile` from src/types.ts. -/
structure UserProfile where
  clientId : String
  username : String
  avatarBase64 : Option String
  avatarColor : Option String
  vipCode : Option String
deriving DecidableEq

/-- `OnlineUser` from src/types.ts: a profile plus the observer-local
`lastSeen` timestamp. -/
structure OnlineUser extends UserProfile where
  lastSeen : Nat
deriving DecidableEq

/-- `MessageType` from src/types.ts. -/
inductive MessageType where
  | text
  | image
  | mixed
  | system
deriving DecidableEq

/-- `Reaction` from src/types.ts. -/
structure Reaction where
  emoji : String
  fromClientId : String
  fromUsername : String
  timestamp : Nat
deriving DecidableEq

/-- The inline `replyToSummary` record of `ChatMessage`. -/
structure ReplySummary where
  username : String
  content : String
deriving DecidableEq

/-- `ChatMessage` from src/types.ts.  The `reactions` record
(`Record<string, Reaction[]>`, keyed by emoji) is an association
list. -/
structure ChatMessage where
  id : String
  type : MessageType
  content : String
  senderId : String
  senderUsername : String
  senderAvatar : Option String := none
  timestamp : Nat
  replyToId : Option String := none
  replyToSummary : Option ReplySummary := none
  imageUrl : Option String := none
  reactions : List (String × List Reaction)
deriving DecidableEq

/-- `RoomConfig` from src/types.ts. -/
structure RoomConfig where
  isPublic : Bool
  topicName : String
  createdBy : String
  createdAt : Nat
deriving DecidableEq

/-- `RoomInfo` from src/types.ts (the fields used by App.tsx). -/
structure RoomInfo where
  id : String
  topicName : String
  isPublic : Bool
  onlineCount : Int
  lastActivity : Nat
deriving DecidableEq

/-- `PresencePayload.type` values. -/
inductive PresenceKind where
  | join
  | leave
  | heartbeat
deriving DecidableEq

/-- `PresencePayload` from src/types.ts. -/
structure PresencePayload where
  type : PresenceKind
  user : UserProfile
  roomId : String
deriving DecidableEq

/-- `PublicRoomPayload` from src/types.ts. -/
structure PublicRoomPayload where
  roomId : String
  topicName : String
  userCount : Int
deriving DecidableEq

/-- `VotePayload.type` values. -/
inductive VoteKind where
  | proposal
  | ballot
deriving DecidableEq

/-- `VotePayload.decision` values. -/
inductive VoteDecision where
  | agree
  | veto
deriving DecidableEq

/-- `VotePayload` from src/types.ts (`action` is always
`'toggle_privacy'` and is omitted). Optional fields are `Option`s. -/
structure VotePayload where
  type : VoteKind
  voteId : String
  targetState : Option Bool := none
  voterId : Option String := none
  decision : Option VoteDecision := none
  initiatorId : Option String := none
  timestamp : Option Nat := none
deriving DecidableEq

/-- `ActiveVoteState` from src/components/ChatRoom.tsx.  `votes` is a
JS `Map<string, boolean>` keyed by voterId. -/
structure ActiveVoteState where
  id : String
  targetState : Bool
  votes : List (String × Bool)
  initiatorId : String
  timestamp : Nat
deriving DecidableEq

/-! ### Broker-facing effects (src/services/mqttService.ts)

Each publishing method of `MqttService` becomes one `Effect`
constructor; an embedded handler returns the list of publishes it
performs, in call order. -/

inductive Effect where
  | publishMessage (roomId : String) (msg : ChatMessage)
  | publishPresence (roomId : String) (payload : PresencePayload)
  | publishReaction (roomId : String) (targetId : String) (r : Reaction)
  | publishConfig (roomId : String) (config : RoomConfig)
  | publishVote (roomId : String) (payload : VotePayload)
  | publishLobby (roomId : String) (payload : PublicRoomPayload)
      (retain : Bool) (expirySeconds : Nat)
  | clearLobby (roomId : String)
deriving DecidableEq

/-- `MqttService.updatePublicRoomListing`: retained publish on
`darkmqtt/lobby/{roomId}` with `messageExpiryInterval: 15`. -/
def updatePublicRoomListing (roomId topicName : String)
    (userCount : Int) : Effect :=
  Effect.publishLobby roomId
    { roomId := roomId, topicName := topicName, userCount := userCount }
    true 15

/-- `MqttService.clearPublicRoomListing`: retained empty publish on the
lobby topic. -/
def clearPublicRoomListing (roomId : String) : Effect :=
  Effect.clearLobby roomId

/-- Recognizer for configuration publishes. -/
def isConfigPublish : Effect → Bool
  | Effect.publishConfig _ _ => true
  | _ => false

/-- Recognizer for lobby-listing publishes. -/
def isLobbyPublish : Effect → Bool
  | Effect.publishLobby _ _ _ _ => true
  | _ => false

/-! ### Message stream handler (src/components/ChatRoom.tsx) -/

/-- The `onMessage` callback (ChatRoom.tsx lines 82-88): discard a
message whose `id` is already in the log, otherwise append it. -/
def onMessage (msg : ChatMessage) (prev : List ChatMessage) :
    List ChatMessage :=
  if prev.any (fun m => m.id = msg.id) then prev else prev ++ [msg]

/-- The per-message body of `handleReaction` (ChatRoom.tsx lines
288-298): on the message with the target id, append the reaction to
its per-emoji list unless an entry with the same `fromClientId` is
already there; every other message is returned unchanged. -/
def applyReactionToMsg (msgId : String) (reaction : Reaction)
    (msg : ChatMessage) : ChatMessage :=
  if ¬ msg.id = msgId then msg
  else
    let currentReactions := (jsGet msg.reactions reaction.emoji).getD []
    if currentReactions.any
        (fun r => r.fromClientId = reaction.fromClientId) then msg
    else
      { msg with
        reactions :=
          jsSet msg.reactions reaction.emoji
            (currentReactions ++ [reaction]) }

/-- `handleReaction` (ChatRoom.tsx lines 287-300): map the reaction
merge over the log. -/
def handleReaction (msgId : String) (reaction : Reaction)
    (prev : List ChatMessage) : List ChatMessage :=
  prev.map (applyReactionToMsg msgId reaction)

/-- `getMessageSummary` (ChatRoom.tsx lines 346-350). -/
def getMessageSummary (msg : ChatMessage) : String :=
  match msg.type with
  | MessageType.image => "[图片]"
  | MessageType.mixed => "[图片] " ++ msg.content
  | _ => msg.content

/-- Local send/receive state of the message stream handler: the visible
log, the offline buffer (`offlineQueueRef`), the connectivity flag and
the reply-target (`replyingTo`). -/
structure MsgState where
  messages : List ChatMessage
  offlineQueue : List ChatMessage
  isConnected : Bool
  replyingTo : Option ChatMessage
deriving DecidableEq

/-- Construction of the outgoing `ChatMessage` inside `sendMessage`
(ChatRoom.tsx lines 352-382).  `freshId` stands for `generateUUID()`
and `now` for `Date.now()`.  JS truthiness of `imageBase64` and `text`
(non-empty strings) drives the `type` determination. -/
def mkOutgoingMessage (user : UserProfile)
    (replyingTo : Option ChatMessage) (text : String)
    (imageBase64 : Option String) (freshId : String) (now : Nat) :
    ChatMessage :=
  let imgTruthy : Bool :=
    match imageBase64 with
    | some s => ¬ s = ""
    | none => false
  let type : MessageType :=
    if imgTruthy ∧ ¬ text = "" then MessageType.mixed
    else if imgTruthy then MessageType.image
    else MessageType.text
  let replySummary : Option ReplySummary :=
    match replyingTo with
    | some rt =>
        let content := getMessageSummary rt
        let content :=
          if content.length > 50 then content.take 50 ++ "..." else content
        some { username := rt.senderUsername, content := content }
    | none => none
  { id := freshId
    type := type
    content := text
    imageUrl := imageBase64
    senderId := user.clientId
    senderUsername := user.username
    timestamp := now
    replyToId := replyingTo.map (fun rt => rt.id)
    replyToSummary := replySummary
    reactions := [] }

/-- `sendMessage` (ChatRoom.tsx lines 352-393): while connected,
publish only; while disconnected, push onto the offline queue and
append to the visible log.  In both cases `replyingTo` is reset. -/
def sendMessage (user : UserProfile) (roomId : String) (text : String)
    (imageBase64 : Option String) (freshId : String) (now : Nat)
    (st : MsgState) : MsgState × List Effect :=
  let newMsg := mkOutgoingMessage user st.replyingTo text imageBase64 freshId now
  if st.isConnected then
    ({ st with replyingTo := none },
     [Effect.publishMessage roomId newMsg])
  else
    ({ st with
        messages := st.messages ++ [newMsg]
        offlineQueue := st.offlineQueue ++ [newMsg]
        replyingTo := none }, [])

/-- `onConnectionChange` (ChatRoom.tsx lines 71-81): record the new
connectivity; on an up transition with a non-empty offline queue, flush
the queue to the transport in order and clear it. -/
def onConnectionChange (roomId : String) (connected : Bool)
    (st : MsgState) : MsgState × List Effect :=
  let st1 := { st with isConnected := connected }
  if connected ∧ 0 < st1.offlineQueue.length then
    ({ st1 with offlineQueue := [] },
     st1.offlineQueue.map (fun m => Effect.publishMessage roomId m))
  else (st1, [])

/-- One authored draft: the arguments of one `sendMessage` call plus
the `generateUUID()` / `Date.now()` values it consumes. -/
structure Draft where
  text : String
  imageBase64 : Option String
  freshId : String
  now : Nat
deriving DecidableEq

/-- Sequential execution of several `sendMessage` calls, accumulating
published effects. -/
def runSends (user : UserProfile) (roomId : String) :
    MsgState → List Draft → MsgState × List Effect
  | st, [] => (st, [])
  | st, d :: ds =>
      let r := sendMessage user roomId d.text d.imageBase64 d.freshId d.now st
      let rest := runSends user roomId r.1 ds
      (rest.1, r.2 ++ rest.2)

/-! ### Membership tracker (src/components/ChatRoom.tsx) -/

/-- `HEARTBEAT_INTERVAL` (ms). -/
def HEARTBEAT_INTERVAL : Nat := 10000

/-- `PRUNE_TIMEOUT` (ms): no heartbeat for 25s removes a user. -/
def PRUNE_TIMEOUT : Nat := 25000

/-- `VOTE_TIMEOUT` (ms): 60s to vote. -/
def VOTE_TIMEOUT : Nat := 60000

/-- The `onPresence` callback (ChatRoom.tsx lines 89-103): `leave`
deletes the sender, anything else upserts it with the observer's
current time as `lastSeen`. -/
def onPresence (now : Nat) (payload : PresencePayload)
    (prev : List (String × OnlineUser)) : List (String × OnlineUser) :=
  if payload.type = PresenceKind.leave then
    jsDelete prev payload.user.clientId
  else
    jsSet prev payload.user.clientId
      { toUserProfile := payload.user, lastSeen := now }

/-- Whether the local peer believes the room is public
(`roomConfig?.isPublic`, `undefined` being falsy). -/
def cfgIsPublic : Option RoomConfig → Bool
  | some c => c.isPublic
  | none => false

/-- One firing of the "Heartbeat & Lobby Sync & User Pruning" interval
(ChatRoom.tsx lines 165-222).  While connected it (1) publishes a
heartbeat, (2) refreshes the local peer's own `lastSeen` if the peer is
in its own map, and (3) republishes the lobby listing with
`onlineUsers.size || 1` when the configuration says public.  In every
case it then prunes entries not seen for more than `PRUNE_TIMEOUT`.
Returns the new user map and the publishes performed. -/
def membershipTick (self : UserProfile) (roomId : String) (now : Nat)
    (isConnected : Bool) (roomConfig : Option RoomConfig)
    (onlineUsers : List (String × OnlineUser)) :
    List (String × OnlineUser) × List Effect :=
  let step :=
    if isConnected then
      let hbEff :=
        Effect.publishPresence roomId
          { type := PresenceKind.heartbeat, user := self, roomId := roomId }
      let refreshed :=
        match jsGet onlineUsers self.clientId with
        | some me =>
            jsSet onlineUsers self.clientId { me with lastSeen := now }
        | none => onlineUsers
      let lobbyEffs :=
        match roomConfig with
        | some cfg =>
            if cfg.isPublic then
              [updatePublicRoomListing roomId cfg.topicName
                (jsOrInt (jsSize onlineUsers) 1)]
            else []
        | none => []
      (refreshed, hbEff :: lobbyEffs)
    else (onlineUsers, [])
  (step.1.filter (fun p => ¬ now - p.2.lastSeen > PRUNE_TIMEOUT), step.2)

/-- An observable event of the membership tracker: a presence
observation or an interval firing, each carrying the local wall clock
and (for ticks) the connectivity at that moment. -/
inductive MemEvent where
  | presence (now : Nat) (payload : PresencePayload)
  | tick (now : Nat) (isConnected : Bool)
deriving DecidableEq

/-- Sequential processing of membership events. -/
def runMembership (self : UserProfile) (roomId : String)
    (roomConfig : Option RoomConfig) :
    List (String × OnlineUser) → List MemEvent →
    List (String × OnlineUser) × List Effect
  | users, [] => (users, [])
  | users, MemEvent.presence now p :: es =>
      runMembership self roomId roomConfig (onPresence now p users) es
  | users, MemEvent.tick now conn :: es =>
      let r := membershipTick self roomId now conn roomConfig users
      let rest := runMembership self roomId roomConfig r.1 es
      (rest.1, r.2 ++ rest.2)

/-! ### Consensus engine (src/components/ChatRoom.tsx) -/

/-- The committed configuration `{ ...currentConfig!, isPublic:
target }`.  The source applies a TS non-null assertion to
`currentConfig`; a spread of a missing object yields a record carrying
only `isPublic`, modelled with default-initialized remaining fields. -/
def applyTargetState (cfg : Option RoomConfig) (target : Bool) :
    RoomConfig :=
  match cfg with
  | some c => { c with isPublic := target }
  | none =>
      { isPublic := target, topicName := "", createdBy := ""
        createdAt := 0 }

/-- `handleVoteSignal` (ChatRoom.tsx lines 302-344).  A proposal
replaces any tracked vote (`payload.timestamp || Date.now()` supplies
the timestamp).  A ballot matching the tracked `voteId` either vetoes
(clearing the slot with no publish), or records the voter in the
`votes` map; when the map reaches the size of the currently known peer
set the vote passes: only the initiator publishes the new
configuration (clearing the lobby listing when it is private) and
every peer clears the slot.  The TS non-null assertions on
`targetState!`, `initiatorId!` and `voterId!` are modelled by
`Option.getD` defaults.  Returns the new vote slot and the publishes
performed. -/
def handleVoteSignal (selfClientId roomId : String) (now : Nat)
    (payload : VotePayload) (currentVote : Option ActiveVoteState)
    (currentUsers : List (String × OnlineUser))
    (currentConfig : Option RoomConfig) :
    Option ActiveVoteState × List Effect :=
  if payload.type = VoteKind.proposal then
    (some
      { id := payload.voteId
        targetState := payload.targetState.getD false
        votes := []
        initiatorId := payload.initiatorId.getD ""
        timestamp :=
          match payload.timestamp with
          | some t => if t = 0 then now else t
          | none => now }, [])
  else
    match currentVote with
    | none => (none, [])
    | some cv =>
      if payload.voteId = cv.id then
        if payload.decision = some VoteDecision.veto then (none, [])
        else
          let newVotes := jsSet cv.votes (payload.voterId.getD "") true
          if jsSize currentUsers ≤ jsSize newVotes then
            if cv.initiatorId = selfClientId then
              let newConfig := applyTargetState currentConfig cv.targetState
              (none,
               Effect.publishConfig roomId newConfig ::
                 (if newConfig.isPublic then []
                  else [clearPublicRoomListing roomId]))
            else (none, [])
          else (some { cv with votes := newVotes }, [])
      else (currentVote, [])

/-- Sequential processing of vote payloads with the peer map and
configuration held fixed (the claims consider a quiescent peer set). -/
def runVoteSignals (selfClientId roomId : String) (now : Nat)
    (currentUsers : List (String × OnlineUser))
    (currentConfig : Option RoomConfig) :
    Option ActiveVoteState → List VotePayload →
    Option ActiveVoteState × List Effect
  | st, [] => (st, [])
  | st, p :: ps =>
      let r := handleVoteSignal selfClientId roomId now p st currentUsers
        currentConfig
      let rest := runVoteSignals selfClientId roomId now currentUsers
        currentConfig r.1 ps
      (rest.1, r.2 ++ rest.2)

/-- An `agree` ballot for the given vote from the given voter, as built
by `castVote` (ChatRoom.tsx lines 447-457). -/
def agreeBallot (voteId voterId : String) : VotePayload :=
  { type := VoteKind.ballot
    voteId := voteId
    voterId := some voterId
    decision := some VoteDecision.agree }

/-- One firing of the vote-timeout interval (ChatRoom.tsx lines
225-260): once more than `VOTE_TIMEOUT` has elapsed since the
proposal's timestamp, the initiator commits the target state (and
clears the lobby listing when the new state is private) while every
other peer merely drops the stale proposal. -/
def voteTimeoutTick (selfClientId roomId : String)
    (cfgRef : Option RoomConfig) (now : Nat)
    (activeVote : Option ActiveVoteState) :
    Option ActiveVoteState × List Effect :=
  match activeVote with
  | none => (none, [])
  | some cv =>
    if VOTE_TIMEOUT < now - cv.timestamp then
      if cv.initiatorId = selfClientId then
        let newConfig := applyTargetState cfgRef cv.targetState
        (none,
         Effect.publishConfig roomId newConfig ::
           (if newConfig.isPublic then []
            else [clearPublicRoomListing roomId]))
      else (none, [])
    else (some cv, [])

/-- Sequential firings of the vote-timeout interval at the given
times. -/
def runTimeoutTicks (selfClientId roomId : String)
    (cfgRef : Option RoomConfig) :
    Option ActiveVoteState → List Nat →
    Option ActiveVoteState × List Effect
  | st, [] => (st, [])
  | st, t :: ts =>
      let r := voteTimeoutTick selfClientId roomId cfgRef t st
      let rest := runTimeoutTicks selfClientId roomId cfgRef r.1 ts
      (rest.1, r.2 ++ rest.2)

/-! ### Transport dispatch (src/services/mqttService.ts) and the lobby
watcher (src/App.tsx) -/

/-- The callbacks a `MqttService` can invoke on an inbound event. -/
inductive Callback where
  | message (m : ChatMessage)
  | presence (p : PresencePayload)
  | reaction (targetId : String) (r : Reaction)
  | configUpdate (c : RoomConfig)
  | vote (p : VotePayload)
  | roomListUpdate (p : PublicRoomPayload)
deriving DecidableEq

/-- `topic.startsWith(prefixStr)`. -/
def jsStartsWith (s prefixStr : String) : Bool :=
  prefixStr.data.isPrefixOf s.data

/-- `topic.split('/').pop()`: the suffix of the topic after its last
`'/'` (the whole topic when it has none). -/
def lastSegment (t : String) : String :=
  String.mk ((t.data.reverse.takeWhile (fun c => ¬ c = '/')).reverse)

/-- The zero-length-payload path of the `'message'` handler installed
by `MqttService.connect` (mqttService.ts lines 75-84): an empty payload
on a `darkmqtt/lobby/` topic with a truthy (non-empty) final segment is
reported as a room-list update with `userCount = 0`; any other empty
payload invokes no callback at all (the handler returns before the
topic dispatch chain). -/
def handleZeroLengthPayload (topic : String) : List Callback :=
  if jsStartsWith topic "darkmqtt/lobby/" then
    let roomId := lastSegment topic
    if roomId = "" then []
    else
      [Callback.roomListUpdate
        { roomId := roomId, topicName := "", userCount := 0 }]
  else []

/-- The `onRoomListUpdate` callback of the lobby watcher (App.tsx lines
60-90): a payload with `userCount <= 0` removes the room from the
public-rooms list, otherwise the room entry is replaced in place or
appended. -/
def appOnRoomListUpdate (now : Nat) (payload : PublicRoomPayload)
    (prev : List RoomInfo) : List RoomInfo :=
  if payload.userCount ≤ 0 then
    prev.filter (fun r => ¬ r.id = payload.roomId)
  else
    let newRoom : RoomInfo :=
      { id := payload.roomId
        topicName := payload.topicName
        isPublic := true
        onlineCount := payload.userCount
        lastActivity := now }
    match prev.findIdx? (fun r => r.id = payload.roomId) with
    | some idx => prev.set idx newRoom
    | none => prev ++ [newRoom]

/-! ### Concrete fixtures used by witness theorems -/

/-- A concrete peer profile. -/
def uA : UserProfile :=
  { clientId := "A", username := "alice", avatarBase64 := none
    avatarColor := none, vipCode := none }

/-- A second concrete peer profile. -/
def uB : UserProfile :=
  { clientId := "B", username := "bob", avatarBase64 := none
    avatarColor := none, vipCode := none }

/-- `uA` as a tracked online peer. -/
def onA : OnlineUser := { toUserProfile := uA, lastSeen := 0 }

/-- `uB` as a tracked online peer. -/
def onB : OnlineUser := { toUserProfile := uB, lastSeen := 0 }

/-- A concrete public room configuration. -/
def cfgPub : RoomConfig :=
  { isPublic := true, topicName := "demo", createdBy := "alice"
    createdAt := 0 }

/-- A concrete chat message with no reactions. -/
def msgW : ChatMessage :=
  { id := "m1", type := MessageType.text, content := "hi"
    senderId := "A", senderUsername := "alice", timestamp := 1
    reactions := [] }

/-- A concrete reaction from peer `B`. -/
def reactW : Reaction :=
  { emoji := "+1", fromClientId := "B", fromUsername := "bob"
    timestamp := 2 }

/-- `msgW` already carrying `reactW`. -/
def msgWReacted : ChatMessage :=
  { msgW with reactions := [("+1", [reactW])] }

/-- A concrete veto ballot. -/
def vetoPayload : VotePayload :=
  { type := VoteKind.ballot, voteId := "v1", voterId := some "B"
    decision := some VoteDecision.veto }

/-- A concrete tracked vote proposing to make the room private,
initiated by `A`. -/
def cvW : ActiveVoteState :=
  { id := "v1", targetState := false, votes := [], initiatorId := "A"
    timestamp := 0 }

/-- A concrete message-stream state while connected. -/
def stConn : MsgState :=
  { messages := [], offlineQueue := [], isConnected := true
    replyingTo := none }

/-- A concrete message-stream state while disconnected. -/
def stDown : MsgState :=
  { messages := [], offlineQueue := [], isConnected := false
    replyingTo := none }

/-- The message that a concrete `sendMessage` call constructs. -/
def sentMsgW : ChatMessage := mkOutgoingMessage uA none "hello" none "id1" 5

/-- A concrete public-rooms entry as tracked by the lobby watcher. -/
def roomInfoW : RoomInfo :=
  { id := "room1", topicName := "demo", isPublic := true
    onlineCount := 3, lastActivity := 0 }

/-- The effects a vote pass or a vote timeout commits: the initiator
publishes the committed configuration (and clears the lobby listing
when the new state is private); everyone else publishes nothing. -/
def passEffects (selfClientId roomId : String)
    (cfg : Option RoomConfig) (cv : ActiveVoteState) : List Effect :=
  if cv.initiatorId = selfClientId then
    Effect.publishConfig roomId (applyTargetState cfg cv.targetState) ::
      (if (applyTargetState cfg cv.targetState).isPublic then []
       else [clearPublicRoomListing roomId])
  else []

/-- Accumulation of distinct voters into a `votes` map, as the ballot
branch of `handleVoteSignal` does one ballot at a time. -/
def foldSet (v : List (String × Bool)) (ws : List String) :
    List (String × Bool) :=
  ws.foldl (fun acc w => jsSet acc w true) v

/-- Per-message uniqueness invariant of the reaction store: emoji keys
are distinct, and within each emoji's list the `fromClientId`s are
distinct. -/
def reactionsWF (m : ChatMessage) : Prop :=
  (m.reactions.map Prod.fst).Nodup ∧
  ∀ p ∈ m.reactions, (p.2.map Reaction.fromClientId).Nodup

/-- Whether the message already carries a reaction with this emoji and
sender (the exact duplicate test of `handleReaction`). -/
def hasReactionFrom (m : ChatMessage) (emoji fromClientId : String) :
    Bool :=
  ((jsGet m.reactions emoji).getD []).any
    (fun r => r.fromClientId = fromClientId)

instance decidableReactionsWF (m : ChatMessage) :
    Decidable (reactionsWF m) := by
  unfold reactionsWF
  infer_instance

/-! ## Lemmas about the JS `Map` model -/

theorem jsGet_jsSet_self {α : Type} (m : List (String × α)) (k : String)
    (v : α) : jsGet (jsSet m k v) k = some v := by
  induction m with
  | nil => simp [jsSet, jsGet]
  | cons p ps ih =>
      by_cases h : p.1 = k
      · simp [jsSet, h, jsGet]
      · simp [jsSet, h, jsGet, ih]

theorem keys_jsSet {α : Type} (m : List (String × α)) (k : String)
    (v : α) :
    (jsSet m k v).map Prod.fst =
      if k ∈ m.map Prod.fst then m.map Prod.fst
      else m.map Prod.fst ++ [k] := by
  induction m with
  | nil => simp [jsSet]
  | cons p ps ih =>
      by_cases h : p.1 = k
      · simp [jsSet, h]
      · have hne : ¬ k = p.1 := fun hk => h hk.symm
        by_cases hmem : k ∈ ps.map Prod.fst
        · simp [jsSet, h, ih, hmem, hne]
        · simp [jsSet, h, ih, hmem, hne]

theorem mem_keys_jsSet {α : Type} (m : List (String × α)) (k k' : String)
    (v : α) :
    k' ∈ (jsSet m k v).map Prod.fst ↔
      k' = k ∨ k' ∈ m.map Prod.fst := by
  rw [keys_jsSet]
  by_cases hmem : k ∈ m.map Prod.fst
  · simp only [hmem, if_pos]
    constructor
    · intro h; exact Or.inr h
    · rintro (rfl | h)
      · exact hmem
      · exact h
  · simp [hmem, or_comm]

theorem nodup_keys_jsSet {α : Type} (m : List (String × α)) (k : String)
    (v : α) (h : (m.map Prod.fst).Nodup) :
    ((jsSet m k v).map Prod.fst).Nodup := by
  rw [keys_jsSet]
  by_cases hmem : k ∈ m.map Prod.fst
  · simpa [hmem] using h
  · simp only [hmem, if_neg, not_false_iff]
    exact List.Nodup.append h (List.nodup_singleton k)
      (by simpa [List.disjoint_singleton] using hmem)

theorem mem_jsSet_of_nodup {α : Type} (m : List (String × α))
    (k : String) (v : α) (q : String × α)
    (hnd : (m.map Prod.fst).Nodup) (hq : q ∈ jsSet m k v) :
    q = (k, v) ∨ (q ∈ m ∧ ¬ q.1 = k) := by
  induction m with
  | nil => simpa [jsSet] using hq
  | cons p ps ih =>
      simp only [List.map_cons, List.nodup_cons] at hnd
      by_cases h : p.1 = k
      · simp only [jsSet, h, if_pos, List.mem_cons] at hq
        rcases hq with rfl | hq
        · exact Or.inl rfl
        · refine Or.inr ⟨List.mem_cons_of_mem _ hq, fun hk => ?_⟩
          exact hnd.1 (h ▸ hk ▸ List.mem_map_of_mem Prod.fst hq)
      · simp only [jsSet, h, if_neg, not_false_iff, List.mem_cons] at hq
        rcases hq with rfl | hq
        · exact Or.inr ⟨List.mem_cons_self _ _, h⟩
        · rcases ih hnd.2 hq with h1 | ⟨h1, h2⟩
          · exact Or.inl h1
          · exact Or.inr ⟨List.mem_cons_of_mem _ h1, h2⟩

theorem jsGet_some_mem {α : Type} (m : List (String × α)) (k : String)
    (v : α) (h : jsGet m k = some v) : (k, v) ∈ m := by
  induction m with
  | nil => simp [jsGet] at h
  | cons p ps ih =>
      by_cases hk : p.1 = k
      · simp only [jsGet, hk, if_pos, Option.some.injEq] at h
        subst h
        exact hk ▸ List.mem_cons_self _ _
      · simp only [jsGet, hk, if_neg, not_false_iff] at h
        exact List.mem_cons_of_mem _ (ih h)

theorem length_jsSet {α : Type} (m : List (String × α)) (k : String)
    (v : α) :
    (jsSet m k v).length =
      if k ∈ m.map Prod.fst then m.length else m.length + 1 := by
  have h1 : (jsSet m k v).length = ((jsSet m k v).map Prod.fst).length :=
    (List.length_map _ _).symm
  rw [h1, keys_jsSet]
  by_cases hmem : k ∈ m.map Prod.fst <;> simp [hmem]

theorem length_le_length_jsSet {α : Type} (m : List (String × α))
    (k : String) (v : α) : m.length ≤ (jsSet m k v).length := by
  rw [length_jsSet]
  by_cases hmem : k ∈ m.map Prod.fst <;> simp [hmem]

theorem foldSet_cons (v : List (String × Bool)) (w : String)
    (ws : List String) : foldSet v (w :: ws) = foldSet (jsSet v w true) ws :=
  rfl

theorem length_le_length_foldSet (ws : List String) :
    ∀ v : List (String × Bool), v.length ≤ (foldSet v ws).length := by
  induction ws with
  | nil => intro v; simp [foldSet]
  | cons w ws ih =>
      intro v
      rw [foldSet_cons]
      exact le_trans (length_le_length_jsSet v w true) (ih _)

theorem length_foldSet_card (ws : List String) :
    ∀ v : List (String × Bool), (v.map Prod.fst).Nodup →
      (foldSet v ws).length =
        ((v.map Prod.fst).toFinset ∪ ws.toFinset).card := by
  induction ws with
  | nil =>
      intro v hnd
      have : (foldSet v []).length = (v.map Prod.fst).length := by
        simp [foldSet]
      rw [this, ← List.toFinset_card_of_nodup hnd]
      simp
  | cons w ws ih =>
      intro v hnd
      rw [foldSet_cons, ih _ (nodup_keys_jsSet v w true hnd)]
      congr 1
      rw [keys_jsSet]
      by_cases hmem : w ∈ v.map Prod.fst
      · simp only [hmem, if_pos]
        ext x
        simp only [Finset.mem_union, List.mem_toFinset, List.mem_cons]
        constructor
        · rintro (h | h)
          · exact Or.inl h
          · exact Or.inr (Or.inr h)
        · rintro (h | rfl | h)
          · exact Or.inl h
          · exact Or.inl hmem
          · exact Or.inr h
      · simp only [hmem, if_neg, not_false_iff]
        ext x
        simp only [Finset.mem_union, List.mem_toFinset, List.mem_append,
          List.mem_cons, List.mem_singleton]
        tauto

/-! ## C7: inbound message deduplication -/

/-- C7: observing an inbound chat message whose id already exists in
the local log leaves the log unchanged, and otherwise appends it;
delivering the same payload twice is idempotent, and twice into a
fresh log yields a log of length 1. -/
theorem onMessage_dedup_idempotent (msg : ChatMessage)
    (msgs : List ChatMessage) :
    ((∃ m ∈ msgs, m.id = msg.id) → onMessage msg msgs = msgs) ∧
    ((¬ ∃ m ∈ msgs, m.id = msg.id) →
       onMessage msg msgs = msgs ++ [msg]) ∧
    onMessage msg (onMessage msg msgs) = onMessage msg msgs ∧
    (onMessage msg (onMessage msg [])).length = 1 := by
  have hchar : msgs.any (fun m => m.id = msg.id) = true ↔
      ∃ m ∈ msgs, m.id = msg.id := by
    simp [List.any_eq_true]
  refine ⟨?_, ?_, ?_, ?_⟩
  · intro h
    simp [onMessage, hchar.mpr h]
  · intro h
    have : msgs.any (fun m => m.id = msg.id) = false := by
      rw [Bool.eq_false_iff]
      intro hc
      exact h (hchar.mp hc)
    simp [onMessage, this]
  · by_cases h : msgs.any (fun m => m.id = msg.id) = true
    · simp [onMessage, h]
    · have h' : msgs.any (fun m => m.id = msg.id) = false := by
        simpa using h
      simp [onMessage, h', List.any_append]
  · simp [onMessage]

/-- Witness for C7 at concrete inputs: a duplicate of `msgW` is
discarded, and a fresh `msgW` is appended. -/
theorem onMessage_dedup_idempotent_witness :
    onMessage msgW [msgW] = [msgW] ∧ onMessage msgW [] = [msgW] :=
  ⟨(onMessage_dedup_idempotent msgW [msgW]).1 ⟨msgW, by simp, rfl⟩,
   (onMessage_dedup_idempotent msgW []).2.1 (by simp)⟩

/-! ## C2: a veto clears the proposal with no publish -/

/-- C2: a single observed ballot with decision `veto` matching the
active proposal's voteId clears the local proposal slot and performs
no publish at all (in particular no `RoomConfiguration` publish, so the
existing configuration is untouched). -/
theorem handleVoteSignal_veto (selfClientId roomId : String) (now : Nat)
    (users : List (String × OnlineUser)) (cfg : Option RoomConfig)
    (cv : ActiveVoteState) (payload : VotePayload)
    (hb : payload.type = VoteKind.ballot)
    (hid : payload.voteId = cv.id)
    (hveto : payload.decision = some VoteDecision.veto) :
    handleVoteSignal selfClientId roomId now payload (some cv) users cfg
      = (none, []) := by
  simp [handleVoteSignal, hb, hid, hveto]

/-- Witness for C2 at concrete inputs. -/
theorem handleVoteSignal_veto_witness :
    handleVoteSignal "A" "r1" 0 vetoPayload (some cvW)
      [("A", onA), ("B", onB)] (some cfgPub) = (none, []) :=
  handleVoteSignal_veto "A" "r1" 0 [("A", onA), ("B", onB)] (some cfgPub)
    cvW vetoPayload rfl rfl rfl

/-! ## C5: outbound send while the transport is up -/

/-- The id of the constructed outgoing message is the generated
UUID. -/
theorem mkOutgoingMessage_id (user : UserProfile)
    (replyingTo : Option ChatMessage) (text : String)
    (imageBase64 : Option String) (freshId : String) (now : Nat) :
    (mkOutgoingMessage user replyingTo text imageBase64 freshId now).id
      = freshId := rfl

/-- C5 counterexample: with the transport up, `sendMessage` publishes
the new message but does **not** append it to the local visible log —
the log stays empty at send time (the author's copy only arrives later
as its own echo through `onMessage`). -/
theorem sendMessage_connected_no_local_append :
    (sendMessage uA "r1" "hello" none "id1" 5 stConn).2
        = [Effect.publishMessage "r1" sentMsgW] ∧
    (sendMessage uA "r1" "hello" none "id1" 5 stConn).1.messages = [] ∧
    sentMsgW ∉ (sendMessage uA "r1" "hello" none "id1" 5 stConn).1.messages := by
  refine ⟨rfl, rfl, by simp [sendMessage, stConn]⟩

/-- C5 (amended): while the transport is up, `sendMessage` publishes
the constructed message immediately and leaves both the visible log
and the offline queue unchanged; the author's copy is appended to the
log only when its echo is observed by `onMessage` (which appends it
when its id is not yet present). -/
theorem sendMessage_connected_publish_only (user : UserProfile)
    (roomId text : String) (imageBase64 : Option String)
    (freshId : String) (now : Nat) (st : MsgState)
    (hconn : st.isConnected = true) :
    (sendMessage user roomId text imageBase64 freshId now st).2
      = [Effect.publishMessage roomId
          (mkOutgoingMessage user st.replyingTo text imageBase64 freshId now)] ∧
    (sendMessage user roomId text imageBase64 freshId now st).1.messages
      = st.messages ∧
    (sendMessage user roomId text imageBase64 freshId now st).1.offlineQueue
      = st.offlineQueue ∧
    (st.messages.any (fun m => m.id = freshId) = false →
      onMessage
        (mkOutgoingMessage user st.replyingTo text imageBase64 freshId now)
        st.messages
        = st.messages ++
            [mkOutgoingMessage user st.replyingTo text imageBase64 freshId now]) := by
  refine ⟨?_, ?_, ?_, ?_⟩
  · simp [sendMessage, hconn]
  · simp [sendMessage, hconn]
  · simp [sendMessage, hconn]
  · intro h
    simp [onMessage, mkOutgoingMessage_id, h]

/-- Witness for C5's amended theorem at concrete inputs. -/
theorem sendMessage_connected_publish_only_witness :
    (sendMessage uA "r1" "hello" none "id1" 5 stConn).1.messages = [] ∧
    (sendMessage uA "r1" "hello" none "id1" 5 stConn).2
      = [Effect.publishMessage "r1"
          (mkOutgoingMessage uA stConn.replyingTo "hello" none "id1" 5)] :=
  ⟨(sendMessage_connected_publish_only uA "r1" "hello" none "id1" 5 stConn
      rfl).2.1,
   (sendMessage_connected_publish_only uA "r1" "hello" none "id1" 5 stConn
      rfl).1⟩

/-! ## C6: offline buffering and replay on reconnect -/

/-- The offline run of `sendMessage`: while disconnected each draft is
appended both to the visible log and to the offline queue, nothing is
published, and connectivity and reply state are unchanged. -/
theorem runSends_offline (user : UserProfile) (roomId : String)
    (drafts : List Draft) :
    ∀ st : MsgState, st.isConnected = false → st.replyingTo = none →
      runSends user roomId st drafts =
        ({ messages := st.messages ++ drafts.map
              (fun d => mkOutgoingMessage user none d.text d.imageBase64
                d.freshId d.now)
           offlineQueue := st.offlineQueue ++ drafts.map
              (fun d => mkOutgoingMessage user none d.text d.imageBase64
                d.freshId d.now)
           isConnected := false
           replyingTo := none }, []) := by
  induction drafts with
  | nil =>
      intro st h1 h2
      cases st
      simp only at h1 h2
      subst h1; subst h2
      simp [runSends]
  | cons d ds ih =>
      intro st h1 h2
      have hstep : sendMessage user roomId d.text d.imageBase64 d.freshId
          d.now st =
          ({ st with
              messages := st.messages ++
                [mkOutgoingMessage user none d.text d.imageBase64 d.freshId d.now]
              offlineQueue := st.offlineQueue ++
                [mkOutgoingMessage user none d.text d.imageBase64 d.freshId d.now]
              replyingTo := none }, []) := by
        simp [sendMessage, h1, h2]
      simp only [runSends, hstep]
      rw [ih _ (by simp [h1]) (by simp)]
      simp [List.append_assoc]

/-- C6: messages authored while the transport is down are appended to
the visible log and buffered; on the next up transition the whole
buffer is flushed to the transport in original enqueue order, each
message published exactly once, and the buffer is left empty while the
log keeps all messages. -/
theorem offline_buffer_flush (user : UserProfile) (roomId : String)
    (st : MsgState) (drafts : List Draft)
    (hdown : st.isConnected = false) (hreply : st.replyingTo = none) :
    (runSends user roomId st drafts).2 = [] ∧
    (runSends user roomId st drafts).1.messages
      = st.messages ++ drafts.map
          (fun d => mkOutgoingMessage user none d.text d.imageBase64
            d.freshId d.now) ∧
    (runSends user roomId st drafts).1.offlineQueue
      = st.offlineQueue ++ drafts.map
          (fun d => mkOutgoingMessage user none d.text d.imageBase64
            d.freshId d.now) ∧
    (onConnectionChange roomId true (runSends user roomId st drafts).1).2
      = (st.offlineQueue ++ drafts.map
          (fun d => mkOutgoingMessage user none d.text d.imageBase64
            d.freshId d.now)).map
          (fun m => Effect.publishMessage roomId m) ∧
    (onConnectionChange roomId true (runSends user roomId st drafts).1).1.offlineQueue
      = [] ∧
    (onConnectionChange roomId true (runSends user roomId st drafts).1).1.messages
      = st.messages ++ drafts.map
          (fun d => mkOutgoingMessage user none d.text d.imageBase64
            d.freshId d.now) := by
  rw [runSends_offline user roomId drafts st hdown hreply]
  set sent := drafts.map
    (fun d => mkOutgoingMessage user none d.text d.imageBase64
      d.freshId d.now) with hsent
  refine ⟨rfl, rfl, rfl, ?_⟩
  rcases Nat.eq_zero_or_pos (st.offlineQueue ++ sent).length with hz | hp
  · have hq : st.offlineQueue = [] ∧ sent = [] := by
      simpa using List.length_eq_zero.mp hz
    refine ⟨?_, ?_, ?_⟩ <;> simp [onConnectionChange, hq.1, hq.2]
  · have hpos : 0 < st.offlineQueue.length ∨ 0 < sent.length := by
      rw [List.length_append] at hp
      omega
    refine ⟨?_, ?_, ?_⟩ <;> simp [onConnectionChange, hpos]

/-- Witness for C6 at concrete inputs: two drafts authored offline are
flushed in order on reconnect. -/
theorem offline_buffer_flush_witness :
    (onConnectionChange "r1" true
      (runSends uA "r1" stDown
        [⟨"one", none, "id1", 5⟩, ⟨"two", none, "id2", 6⟩]).1).2
      = [Effect.publishMessage "r1"
            (mkOutgoingMessage uA none "one" none "id1" 5),
         Effect.publishMessage "r1"
            (mkOutgoingMessage uA none "two" none "id2" 6)] ∧
    (onConnectionChange "r1" true
      (runSends uA "r1" stDown
        [⟨"one", none, "id1", 5⟩, ⟨"two", none, "id2", 6⟩]).1).1.offlineQueue
      = [] := by
  have h := offline_buffer_flush uA "r1" stDown
    [⟨"one", none, "id1", 5⟩, ⟨"two", none, "id2", 6⟩] rfl rfl
  exact ⟨by rw [h.2.2.2.1]; rfl, h.2.2.2.2.1⟩

/-! ## C8: reaction uniqueness and idempotence -/

/-- Mapping a function that fixes every element of a list is the
identity. -/
theorem map_eq_of_eq_id {α : Type} (f : α → α) :
    ∀ l : List α, (∀ x ∈ l, f x = x) → l.map f = l := by
  intro l h
  induction l with
  | nil => rfl
  | cons a t ih =>
      simp only [List.map_cons, h a (List.mem_cons_self a t),
        List.cons.injEq, true_and]
      exact ih (fun x hx => h x (List.mem_cons_of_mem a hx))

/-- A reaction merge on a message that either is not the target or
already carries the (emoji, sender) pair is the identity. -/
theorem applyReactionToMsg_eq_self (msgId : String) (r : Reaction)
    (m : ChatMessage)
    (h : m.id = msgId → hasReactionFrom m r.emoji r.fromClientId = true) :
    applyReactionToMsg msgId r m = m := by
  by_cases hid : m.id = msgId
  · have hdup := h hid
    unfold hasReactionFrom at hdup
    simp [applyReactionToMsg, hid, hdup]
  · simp [applyReactionToMsg, hid]

/-- The reaction merge preserves the per-message uniqueness
invariant. -/
theorem applyReactionToMsg_wf (msgId : String) (r : Reaction)
    (m : ChatMessage) (h : reactionsWF m) :
    reactionsWF (applyReactionToMsg msgId r m) := by
  by_cases hid : m.id = msgId
  · by_cases hdup : ((jsGet m.reactions r.emoji).getD []).any
        (fun x => x.fromClientId = r.fromClientId) = true
    · simpa [applyReactionToMsg, hid, hdup] using h
    · have hdup' : ((jsGet m.reactions r.emoji).getD []).any
          (fun x => x.fromClientId = r.fromClientId) = false := by
        simpa using hdup
      simp only [applyReactionToMsg, hid, not_true_eq_false, if_false,
        hdup', Bool.false_eq_true]
      constructor
      · exact nodup_keys_jsSet m.reactions r.emoji _ h.1
      · intro p hp
        rcases mem_jsSet_of_nodup m.reactions r.emoji _ p h.1 hp with
          rfl | ⟨hpm, _⟩
        · have hnotmem : r.fromClientId ∉
              (((jsGet m.reactions r.emoji).getD []).map
                Reaction.fromClientId) := by
            intro hmem
            rcases List.mem_map.mp hmem with ⟨x, hx, hx2⟩
            have : ((jsGet m.reactions r.emoji).getD []).any
                (fun x => x.fromClientId = r.fromClientId) = true := by
              rw [List.any_eq_true]
              exact ⟨x, hx, by simp [hx2]⟩
            rw [this] at hdup'
            simp at hdup'
          have hcur : (((jsGet m.reactions r.emoji).getD []).map
              Reaction.fromClientId).Nodup := by
            cases hget : jsGet m.reactions r.emoji with
            | none => simp
            | some l =>
                have := jsGet_some_mem m.reactions r.emoji l hget
                simpa [hget] using h.2 _ this
          simp only [List.map_append, List.map_cons, List.map_nil]
          rw [List.nodup_append]
          exact ⟨hcur, List.nodup_singleton _,
            by simpa [List.disjoint_singleton] using hnotmem⟩
        · exact h.2 p hpm
  · simpa [applyReactionToMsg, hid] using h

/-- In the appending branch, the merged message keeps the target id
and its per-emoji list gains exactly the new reaction at the end. -/
theorem applyReactionToMsg_append (msgId : String) (r : Reaction)
    (m : ChatMessage) (hid : m.id = msgId)
    (hdup : ((jsGet m.reactions r.emoji).getD []).any
        (fun x => x.fromClientId = r.fromClientId) = false) :
    (applyReactionToMsg msgId r m).id = msgId ∧
    jsGet (applyReactionToMsg msgId r m).reactions r.emoji
      = some (((jsGet m.reactions r.emoji).getD []) ++ [r]) := by
  unfold applyReactionToMsg
  simp only [hid, not_true_eq_false, if_false, hdup, Bool.false_eq_true]
  exact ⟨trivial, jsGet_jsSet_self _ _ _⟩

/-- Reapplying a reaction with the same emoji and sender is the
identity on the already-merged message. -/
theorem applyReactionToMsg_fix (msgId : String) (r r' : Reaction)
    (m : ChatMessage) (he : r'.emoji = r.emoji)
    (hf : r'.fromClientId = r.fromClientId) :
    applyReactionToMsg msgId r' (applyReactionToMsg msgId r m)
      = applyReactionToMsg msgId r m := by
  by_cases hid : m.id = msgId
  · by_cases hdup : ((jsGet m.reactions r.emoji).getD []).any
        (fun x => x.fromClientId = r.fromClientId) = true
    · have h1 : applyReactionToMsg msgId r m = m := by
        simp [applyReactionToMsg, hid, hdup]
      rw [h1]
      apply applyReactionToMsg_eq_self
      intro _
      unfold hasReactionFrom
      rw [he, hf]
      exact hdup
    · have hdup' : ((jsGet m.reactions r.emoji).getD []).any
          (fun x => x.fromClientId = r.fromClientId) = false := by
        simpa using hdup
      have h2 := applyReactionToMsg_append msgId r m hid hdup'
      apply applyReactionToMsg_eq_self
      intro _
      unfold hasReactionFrom
      rw [he, hf, h2.2]
      simp
  · have h1 : applyReactionToMsg msgId r m = m := by
      simp [applyReactionToMsg, hid]
    rw [h1]
    simp [applyReactionToMsg, hid]

/-- C8: the reaction store keeps at most one entry per
(emoji, fromClientId) on every message: (1) a reaction observation
preserves the uniqueness invariant, (2) a reaction whose
(emoji, fromClientId) pair is already present on the target message is
a no-op on the whole log, and (3) delivering a second reaction with
the same emoji and sender right after a first one changes nothing. -/
theorem handleReaction_unique (msgId : String) (r : Reaction)
    (prev : List ChatMessage) :
    ((∀ m ∈ prev, reactionsWF m) →
       ∀ m ∈ handleReaction msgId r prev, reactionsWF m) ∧
    ((∀ m ∈ prev, m.id = msgId →
        hasReactionFrom m r.emoji r.fromClientId = true) →
       handleReaction msgId r prev = prev) ∧
    (∀ r' : Reaction, r'.emoji = r.emoji →
       r'.fromClientId = r.fromClientId →
       handleReaction msgId r' (handleReaction msgId r prev)
         = handleReaction msgId r prev) := by
  refine ⟨?_, ?_, ?_⟩
  · intro hwf m hm
    rcases List.mem_map.mp hm with ⟨m0, hm0, rfl⟩
    exact applyReactionToMsg_wf msgId r m0 (hwf m0 hm0)
  · intro hdup
    exact map_eq_of_eq_id _ prev
      (fun m hm => applyReactionToMsg_eq_self msgId r m (hdup m hm))
  · intro r' he hf
    apply map_eq_of_eq_id
    intro x hx
    rcases List.mem_map.mp hx with ⟨m0, _, rfl⟩
    exact applyReactionToMsg_fix msgId r r' m0 he hf

/-- Witness for C8 at concrete inputs: merging `reactW` into a log
keeps the invariant, and merging it into a log already carrying it is
a no-op. -/
theorem handleReaction_unique_witness :
    (∀ m ∈ handleReaction "m1" reactW [msgW], reactionsWF m) ∧
    handleReaction "m1" reactW [msgWReacted] = [msgWReacted] :=
  ⟨(handleReaction_unique "m1" reactW [msgW]).1 (by decide),
   (handleReaction_unique "m1" reactW [msgWReacted]).2.1 (by decide)⟩

/-! ## C4: a peer never prunes itself while heartbeating -/

theorem jsGet_isSome_of_mem_keys {α : Type} (m : List (String × α))
    (k : String) (h : k ∈ m.map Prod.fst) : ∃ v, jsGet m k = some v := by
  induction m with
  | nil => simp at h
  | cons p ps ih =>
      by_cases hk : p.1 = k
      · exact ⟨p.2, by simp [jsGet, hk]⟩
      · have h' := h
        rw [List.map_cons] at h'
        rcases List.mem_cons.mp h' with h1 | h1
        · exact absurd h1.symm hk
        · rcases ih h1 with ⟨v, hv⟩
          exact ⟨v, by simp [jsGet, hk, hv]⟩

theorem jsSet_mem_self {α : Type} (m : List (String × α)) (k : String)
    (v : α) : (k, v) ∈ jsSet m k v := by
  induction m with
  | nil => simp [jsSet]
  | cons p ps ih =>
      by_cases hk : p.1 = k
      · simp [jsSet, hk]
      · simp only [jsSet, hk, if_neg, not_false_iff, List.mem_cons]
        exact Or.inr ih

/-- A connected membership tick never removes the local peer from its
own tracked peer set: its own `lastSeen` is refreshed to `now` before
the prune filter runs. -/
theorem membershipTick_keeps_self (self : UserProfile) (roomId : String)
    (now : Nat) (cfg : Option RoomConfig)
    (users : List (String × OnlineUser))
    (h : self.clientId ∈ users.map Prod.fst) :
    self.clientId ∈
      (membershipTick self roomId now true cfg users).1.map Prod.fst := by
  rcases jsGet_isSome_of_mem_keys users self.clientId h with ⟨me, hme⟩
  have hmem : (self.clientId, { me with lastSeen := now }) ∈
      jsSet users self.clientId { me with lastSeen := now } :=
    jsSet_mem_self _ _ _
  have hkeep : (self.clientId, { me with lastSeen := now }) ∈
      (jsSet users self.clientId
        { me with lastSeen := now }).filter
        (fun p => ¬ now - p.2.lastSeen > PRUNE_TIMEOUT) := by
    rw [List.mem_filter]
    exact ⟨hmem, by simp [PRUNE_TIMEOUT]⟩
  simp only [membershipTick, if_pos, hme]
  exact List.mem_map_of_mem Prod.fst hkeep

/-- A presence observation that is not a `leave` for the local peer
keeps the local peer tracked. -/
theorem onPresence_keeps_self (now : Nat) (p : PresencePayload)
    (users : List (String × OnlineUser)) (selfId : String)
    (hne : p.type = PresenceKind.leave → ¬ p.user.clientId = selfId)
    (h : selfId ∈ users.map Prod.fst) :
    selfId ∈ (onPresence now p users).map Prod.fst := by
  by_cases hl : p.type = PresenceKind.leave
  · rcases jsGet_isSome_of_mem_keys users selfId h with ⟨v, hv⟩
    have hqmem : (selfId, v) ∈ users := jsGet_some_mem users selfId v hv
    have : (selfId, v) ∈ jsDelete users p.user.clientId := by
      rw [jsDelete, List.mem_filter]
      exact ⟨hqmem, by simpa using fun hc => (hne hl) hc.symm⟩
    simpa [onPresence, hl] using List.mem_map_of_mem Prod.fst this
  · simp only [onPresence, hl, if_neg, not_false_iff]
    exact (mem_keys_jsSet users p.user.clientId selfId _).mpr (Or.inr h)

/-- C4: over any sequence of presence observations and membership
ticks during which the heartbeat loop runs (every tick happens while
the transport is up) and no `leave` for the local peer is observed,
the local peer is never dropped from its own tracked peer set — in
particular the prune step never deletes it. -/
theorem self_never_pruned (self : UserProfile) (roomId : String)
    (cfg : Option RoomConfig) (users : List (String × OnlineUser))
    (events : List MemEvent)
    (hticks : ∀ now conn, MemEvent.tick now conn ∈ events → conn = true)
    (hleave : ∀ now p, MemEvent.presence now p ∈ events →
        p.type = PresenceKind.leave → ¬ p.user.clientId = self.clientId)
    (hself : self.clientId ∈ users.map Prod.fst) :
    self.clientId ∈
      (runMembership self roomId cfg users events).1.map Prod.fst := by
  induction events generalizing users with
  | nil => simpa [runMembership] using hself
  | cons e es ih =>
      cases e with
      | presence now p =>
          simp only [runMembership]
          exact ih _
            (fun n c hc => hticks n c (List.mem_cons_of_mem _ hc))
            (fun n q hq => hleave n q (List.mem_cons_of_mem _ hq))
            (onPresence_keeps_self now p users self.clientId
              (hleave now p (List.mem_cons_self _ _)) hself)
      | tick now conn =>
          have hc : conn = true :=
            hticks now conn (List.mem_cons_self _ _)
          subst hc
          simp only [runMembership]
          exact ih _
            (fun n c hc => hticks n c (List.mem_cons_of_mem _ hc))
            (fun n q hq => hleave n q (List.mem_cons_of_mem _ hq))
            (membershipTick_keeps_self self roomId now cfg users hself)

/-- Witness for C4 at concrete inputs: a stale self entry survives a
connected tick that prunes a stale other peer. -/
theorem self_never_pruned_witness :
    "A" ∈ (runMembership uA "r1" (some cfgPub)
        [("A", onA), ("B", onB)]
        [MemEvent.tick 30000 true]).1.map Prod.fst :=
  self_never_pruned uA "r1" (some cfgPub) [("A", onA), ("B", onB)]
    [MemEvent.tick 30000 true]
    (by
      intro now conn hmem
      simp only [List.mem_singleton] at hmem
      cases hmem
      rfl)
    (by
      intro now p hmem
      simp at hmem)
    (by simp [uA])

/-! ## C1: unanimous quorum pass -/

/-- A stream of ballots observed with no tracked vote leaves the slot
empty and publishes nothing. -/
theorem runVoteSignals_none_of_ballots (self roomId : String)
    (now : Nat) (users : List (String × OnlineUser))
    (cfg : Option RoomConfig) (ps : List VotePayload)
    (hb : ∀ p ∈ ps, p.type = VoteKind.ballot) :
    runVoteSignals self roomId now users cfg none ps = (none, []) := by
  induction ps with
  | nil => rfl
  | cons p ps ih =>
      have hp : p.type = VoteKind.ballot := hb p (List.mem_cons_self _ _)
      have hstep : handleVoteSignal self roomId now p none users cfg
          = (none, []) := by
        simp [handleVoteSignal, hp]
      simp [runVoteSignals, hstep,
        ih (fun q hq => hb q (List.mem_cons_of_mem _ hq))]

/-- One `agree` ballot matching the tracked vote either passes the
vote (committing `passEffects`) when the vote count reaches the known
peer count, or records the voter and waits. -/
theorem handleVoteSignal_agree_step (self roomId : String) (now : Nat)
    (users : List (String × OnlineUser)) (cfg : Option RoomConfig)
    (cv : ActiveVoteState) (w : String) :
    handleVoteSignal self roomId now (agreeBallot cv.id w) (some cv)
        users cfg
      = (if jsSize users ≤ jsSize (jsSet cv.votes w true)
         then (none, passEffects self roomId cfg cv)
         else (some { cv with votes := jsSet cv.votes w true }, [])) := by
  by_cases hpass : jsSize users ≤ jsSize (jsSet cv.votes w true)
  · by_cases hinit : cv.initiatorId = self <;>
      simp [handleVoteSignal, agreeBallot, hpass, passEffects, hinit]
  · simp [handleVoteSignal, agreeBallot, hpass]

/-- Core induction for the quorum pass: processing a stream of `agree`
ballots from a not-yet-passed vote either reaches the quorum somewhere
(and then the slot ends cleared with exactly the pass effects,
published once) or never reaches it (and then the slot holds all
distinct voters seen, with nothing published). -/
theorem runVoteSignals_agree_aux (self roomId : String) (now : Nat)
    (users : List (String × OnlineUser)) (cfg : Option RoomConfig)
    (cv : ActiveVoteState) (voters : List String) :
    ∀ v : List (String × Bool), v.length < jsSize users →
      (jsSize users ≤ (foldSet v voters).length →
        runVoteSignals self roomId now users cfg
            (some { cv with votes := v }) (voters.map (agreeBallot cv.id))
          = (none, passEffects self roomId cfg cv)) ∧
      (¬ jsSize users ≤ (foldSet v voters).length →
        runVoteSignals self roomId now users cfg
            (some { cv with votes := v }) (voters.map (agreeBallot cv.id))
          = (some { cv with votes := foldSet v voters }, [])) := by
  induction voters with
  | nil =>
      intro v hlt
      constructor
      · intro habs
        exact absurd habs (by simpa [foldSet, jsSize] using Nat.not_le.mpr hlt)
      · intro _
        simp [runVoteSignals, foldSet]
  | cons w ws ih =>
      intro v hlt
      have hstep := handleVoteSignal_agree_step self roomId now users cfg
        { cv with votes := v } w
      by_cases hpass : jsSize users ≤ jsSize (jsSet v w true)
      · have hrest : runVoteSignals self roomId now users cfg none
            (ws.map (agreeBallot cv.id)) = (none, []) :=
          runVoteSignals_none_of_ballots self roomId now users cfg _
            (by
              intro q hq
              rcases List.mem_map.mp hq with ⟨x, _, rfl⟩
              rfl)
        have hrun : runVoteSignals self roomId now users cfg
            (some { cv with votes := v })
            ((w :: ws).map (agreeBallot cv.id))
            = (none, passEffects self roomId cfg cv) := by
          simp only [List.map_cons, runVoteSignals]
          rw [hstep]
          simp [hpass, hrest, passEffects]
        have hsize : jsSize users ≤ (foldSet v (w :: ws)).length := by
          rw [foldSet_cons]
          exact le_trans hpass (length_le_length_foldSet ws _)
        exact ⟨fun _ => hrun, fun habs => absurd hsize habs⟩
      · have hlt' : (jsSet v w true).length < jsSize users :=
          Nat.not_le.mp hpass
        have ihs := ih (jsSet v w true) hlt'
        have hcollapse :
            (some { cv with votes := jsSet v w true } :
              Option ActiveVoteState)
              = some { cv with votes := jsSet v w true } := rfl
        constructor
        · intro hq
          rw [foldSet_cons] at hq
          have := ihs.1 hq
          simp only [List.map_cons, runVoteSignals]
          rw [hstep]
          simp only [hpass, if_neg, not_false_iff, Bool.false_eq_true]
          rw [this]
          simp
        · intro hq
          rw [foldSet_cons] at hq
          have := ihs.2 hq
          simp only [List.map_cons, runVoteSignals]
          rw [hstep]
          simp only [hpass, if_neg, not_false_iff, Bool.false_eq_true]
          rw [this]
          simp [foldSet_cons]

/-- The committed configuration carries exactly the proposal's target
state. -/
theorem applyTargetState_isPublic (cfg : Option RoomConfig) (b : Bool) :
    (applyTargetState cfg b).isPublic = b := by
  cases cfg <;> rfl

/-- What a commit publishes: exactly one configuration publish iff the
local peer is the initiator, followed by an explicit lobby clear iff
the new state is private; non-initiators publish nothing. -/
theorem passEffects_spec (self roomId : String) (cfg : Option RoomConfig)
    (cv : ActiveVoteState) :
    ((passEffects self roomId cfg cv).countP isConfigPublish
      = if cv.initiatorId = self then 1 else 0) ∧
    (cv.initiatorId = self →
      passEffects self roomId cfg cv
        = Effect.publishConfig roomId (applyTargetState cfg cv.targetState)
            :: (if cv.targetState = true then []
                else [Effect.clearLobby roomId])) ∧
    (¬ cv.initiatorId = self → passEffects self roomId cfg cv = []) ∧
    (Effect.clearLobby roomId ∈ passEffects self roomId cfg cv ↔
      (cv.initiatorId = self ∧ cv.targetState = false)) := by
  by_cases hinit : cv.initiatorId = self
  · cases htg : cv.targetState <;>
      simp [passEffects, hinit, htg, applyTargetState_isPublic,
        clearPublicRoomListing, isConfigPublish, List.countP_cons]
  · simp [passEffects, hinit]

/-- C1: with N currently known peers and an active proposal with an
empty ballot set, once `agree` ballots matching the proposal's voteId
have been observed from N distinct voterIds (duplicate re-casts
allowed — they never increase the count), the vote commits: every peer
clears its local proposal slot, exactly one `RoomConfiguration`
publish occurs and only at the peer whose clientId is the proposal's
initiatorId, that configuration carries `isPublic = targetState`, and
the lobby listing is explicitly cleared iff the target state is
private. -/
theorem quorum_pass_unique_commit (self roomId : String) (now : Nat)
    (users : List (String × OnlineUser)) (cfg : Option RoomConfig)
    (cv : ActiveVoteState) (voters : List String)
    (hvotes : cv.votes = [])
    (hN : 0 < jsSize users)
    (hcard : voters.toFinset.card = jsSize users) :
    (runVoteSignals self roomId now users cfg (some cv)
        (voters.map (agreeBallot cv.id))).1 = none ∧
    ((runVoteSignals self roomId now users cfg (some cv)
        (voters.map (agreeBallot cv.id))).2.countP isConfigPublish
      = if cv.initiatorId = self then 1 else 0) ∧
    (cv.initiatorId = self →
      (runVoteSignals self roomId now users cfg (some cv)
          (voters.map (agreeBallot cv.id))).2
        = Effect.publishConfig roomId (applyTargetState cfg cv.targetState)
            :: (if cv.targetState = true then []
                else [Effect.clearLobby roomId])) ∧
    (¬ cv.initiatorId = self →
      (runVoteSignals self roomId now users cfg (some cv)
          (voters.map (agreeBallot cv.id))).2 = []) ∧
    (applyTargetState cfg cv.targetState).isPublic = cv.targetState ∧
    (Effect.clearLobby roomId ∈
        (runVoteSignals self roomId now users cfg (some cv)
          (voters.map (agreeBallot cv.id))).2 ↔
      (cv.initiatorId = self ∧ cv.targetState = false)) := by
  have hcv : ({ cv with votes := [] } : ActiveVoteState) = cv := by
    cases cv
    simp only at hvotes
    rw [hvotes]
  have hfold : jsSize users ≤ (foldSet [] voters).length := by
    rw [length_foldSet_card voters [] (by simp)]
    simp only [List.map_nil, List.toFinset_nil, Finset.empty_union]
    exact le_of_eq hcard.symm
  have hrun := ((runVoteSignals_agree_aux self roomId now users cfg cv
    voters) [] (by simpa using hN)).1 hfold
  rw [hcv] at hrun
  rw [hrun]
  have hspec := passEffects_spec self roomId cfg cv
  exact ⟨rfl, hspec.1, hspec.2.1, hspec.2.2.1,
    applyTargetState_isPublic cfg cv.targetState, hspec.2.2.2⟩

/-- Witness for C1 at concrete inputs: two known peers, agree ballots
from voters A, B and a duplicate B; the initiator A commits once and
clears the lobby listing (the target state is private). -/
theorem quorum_pass_unique_commit_witness :
    (runVoteSignals "A" "r1" 0 [("A", onA), ("B", onB)] (some cfgPub)
        (some cvW) (["A", "B", "B"].map (agreeBallot cvW.id))).1 = none ∧
    (runVoteSignals "A" "r1" 0 [("A", onA), ("B", onB)] (some cfgPub)
        (some cvW) (["A", "B", "B"].map (agreeBallot cvW.id))).2
      = Effect.publishConfig "r1"
            (applyTargetState (some cfgPub) cvW.targetState)
          :: (if cvW.targetState = true then []
              else [Effect.clearLobby "r1"]) :=
  ⟨(quorum_pass_unique_commit "A" "r1" 0 [("A", onA), ("B", onB)]
      (some cfgPub) cvW ["A", "B", "B"] rfl (by decide) (by decide)).1,
   (quorum_pass_unique_commit "A" "r1" 0 [("A", onA), ("B", onB)]
      (some cfgPub) cvW ["A", "B", "B"] rfl (by decide) (by decide)).2.2.1
      rfl⟩

/-! ## C3: timeout pass -/

/-- Timeout ticks with no tracked vote do nothing. -/
theorem runTimeoutTicks_none (self roomId : String)
    (cfg : Option RoomConfig) (ts : List Nat) :
    runTimeoutTicks self roomId cfg none ts = (none, []) := by
  induction ts with
  | nil => rfl
  | cons t ts ih => simp [runTimeoutTicks, voteTimeoutTick, ih]

/-- A tick past the deadline commits the pass effects and clears the
slot. -/
theorem voteTimeoutTick_fire (self roomId : String)
    (cfg : Option RoomConfig) (now : Nat) (cv : ActiveVoteState)
    (h : VOTE_TIMEOUT < now - cv.timestamp) :
    voteTimeoutTick self roomId cfg now (some cv)
      = (none, passEffects self roomId cfg cv) := by
  by_cases hinit : cv.initiatorId = self <;>
    simp [voteTimeoutTick, h, passEffects, hinit]

/-- Once some tick of the sequence falls past the deadline, the run
ends with the slot cleared and exactly the pass effects. -/
theorem runTimeoutTicks_fire (self roomId : String)
    (cfg : Option RoomConfig) (cv : ActiveVoteState) (ts : List Nat)
    (hfire : ∃ t ∈ ts, VOTE_TIMEOUT < t - cv.timestamp) :
    runTimeoutTicks self roomId cfg (some cv) ts
      = (none, passEffects self roomId cfg cv) := by
  induction ts with
  | nil => simp at hfire
  | cons t ts ih =>
      by_cases hf : VOTE_TIMEOUT < t - cv.timestamp
      · simp only [runTimeoutTicks]
        rw [voteTimeoutTick_fire self roomId cfg t cv hf]
        simp [runTimeoutTicks_none]
      · have hstep : voteTimeoutTick self roomId cfg t (some cv)
            = (some cv, []) := by
          simp [voteTimeoutTick, hf]
        have hex : ∃ x ∈ ts, VOTE_TIMEOUT < x - cv.timestamp := by
          rcases hfire with ⟨x, hx, hxf⟩
          rcases List.mem_cons.mp hx with rfl | hx'
          · exact absurd hxf hf
          · exact ⟨x, hx', hxf⟩
        simp only [runTimeoutTicks]
        rw [hstep, ih hex]
        simp

/-- C3: for a proposal still tracked when the 60-second deadline has
passed, a timeout tick makes the initiator publish the target
configuration exactly once (clearing the lobby listing when the new
state is private) while every non-initiator merely discards its local
proposal slot and publishes nothing. -/
theorem vote_timeout_commit (self roomId : String)
    (cfg : Option RoomConfig) (cv : ActiveVoteState) (ts : List Nat)
    (hfire : ∃ t ∈ ts, VOTE_TIMEOUT < t - cv.timestamp) :
    (runTimeoutTicks self roomId cfg (some cv) ts).1 = none ∧
    ((runTimeoutTicks self roomId cfg (some cv) ts).2.countP
        isConfigPublish = if cv.initiatorId = self then 1 else 0) ∧
    (cv.initiatorId = self →
      (runTimeoutTicks self roomId cfg (some cv) ts).2
        = Effect.publishConfig roomId (applyTargetState cfg cv.targetState)
            :: (if cv.targetState = true then []
                else [Effect.clearLobby roomId])) ∧
    (¬ cv.initiatorId = self →
      (runTimeoutTicks self roomId cfg (some cv) ts).2 = []) ∧
    (applyTargetState cfg cv.targetState).isPublic = cv.targetState ∧
    (Effect.clearLobby roomId ∈
        (runTimeoutTicks self roomId cfg (some cv) ts).2 ↔
      (cv.initiatorId = self ∧ cv.targetState = false)) := by
  rw [runTimeoutTicks_fire self roomId cfg cv ts hfire]
  have hspec := passEffects_spec self roomId cfg cv
  exact ⟨rfl, hspec.1, hspec.2.1, hspec.2.2.1,
    applyTargetState_isPublic cfg cv.targetState, hspec.2.2.2⟩

/-- Witness for C3 at concrete inputs: ticks at 30s, 61s and 62s; the
initiator commits the private target once and clears the listing. -/
theorem vote_timeout_commit_witness :
    (runTimeoutTicks "A" "r1" (some cfgPub) (some cvW)
        [30000, 61000, 62000]).1 = none ∧
    (runTimeoutTicks "A" "r1" (some cfgPub) (some cvW)
        [30000, 61000, 62000]).2
      = Effect.publishConfig "r1"
            (applyTargetState (some cfgPub) cvW.targetState)
          :: (if cvW.targetState = true then []
              else [Effect.clearLobby "r1"]) :=
  ⟨(vote_timeout_commit "A" "r1" (some cfgPub) cvW [30000, 61000, 62000]
      ⟨61000, by simp, by decide⟩).1,
   (vote_timeout_commit "A" "r1" (some cfgPub) cvW [30000, 61000, 62000]
      ⟨61000, by simp, by decide⟩).2.2.1 rfl⟩

/-! ## C9: lobby listing republication -/

/-- C9 counterexample: the claim "a LobbyListing with userCount equal
to the tracked peer count is published on each membership tick iff the
configuration says public" fails on the code at two concrete inputs:
(a) with a public configuration but the transport down, the tick
publishes no listing at all; (b) with the transport up, a public
configuration and an empty tracked peer set (count 0), the tick
publishes a listing whose `userCount` is `1`, not the tracked count
`0` (the source computes `onlineUsers.size || 1`). -/
theorem lobby_tick_claim_false :
    (cfgIsPublic (some cfgPub) = true ∧
     (membershipTick uA "r1" 0 false (some cfgPub) []).2.countP
        isLobbyPublish = 0) ∧
    (jsSize ([] : List (String × OnlineUser)) = 0 ∧
     (membershipTick uA "r1" 0 true (some cfgPub) []).2
       = [Effect.publishPresence "r1"
            { type := PresenceKind.heartbeat, user := uA, roomId := "r1" },
          Effect.publishLobby "r1"
            { roomId := "r1", topicName := "demo", userCount := 1 }
            true 15]) := by
  exact ⟨⟨rfl, rfl⟩, rfl, rfl⟩

/-- C9 (amended): on each membership tick, a lobby listing is
published iff the transport is up and the current configuration says
the room is public; it is the 15-second-expiry retained listing whose
`userCount` is the tracked peer count, or 1 when that count is zero
(this build always talks to the single built-in broker, so no
private/custom-endpoint condition exists in the code). -/
theorem lobby_tick_publish (self : UserProfile) (roomId : String)
    (now : Nat) (connected : Bool) (cfg : Option RoomConfig)
    (users : List (String × OnlineUser)) :
    ((membershipTick self roomId now connected cfg users).2.countP
        isLobbyPublish
      = if connected = true ∧ cfgIsPublic cfg = true then 1 else 0) ∧
    (∀ c, cfg = some c → connected = true → c.isPublic = true →
      updatePublicRoomListing roomId c.topicName
          (jsOrInt (jsSize users) 1) ∈
        (membershipTick self roomId now connected cfg users).2) := by
  constructor
  · cases connected
    · simp [membershipTick]
    · cases cfg with
      | none => simp [membershipTick, cfgIsPublic, isLobbyPublish]
      | some c =>
          by_cases hpub : c.isPublic = true
          · simp [membershipTick, cfgIsPublic, hpub,
              updatePublicRoomListing, isLobbyPublish]
          · simp only [Bool.not_eq_true] at hpub
            simp [membershipTick, cfgIsPublic, hpub, isLobbyPublish]
  · intro c hc hconn hpub
    subst hc
    subst hconn
    simp [membershipTick, hpub]

/-- Witness for C9's amended theorem at concrete inputs: one tracked
peer, transport up, public configuration. -/
theorem lobby_tick_publish_witness :
    updatePublicRoomListing "r1" cfgPub.topicName
        (jsOrInt (jsSize [("A", onA)]) 1) ∈
      (membershipTick uA "r1" 0 true (some cfgPub) [("A", onA)]).2 :=
  (lobby_tick_publish uA "r1" 0 true (some cfgPub) [("A", onA)]).2
    cfgPub rfl rfl rfl

/-! ## C10: zero-length payloads -/

theorem takeWhile_append_all {α : Type} (p : α → Bool)
    (l1 l2 : List α) (h : ∀ a ∈ l1, p a = true) :
    (l1 ++ l2).takeWhile p = l1 ++ l2.takeWhile p := by
  induction l1 with
  | nil => simp
  | cons a t ih =>
      have ha := h a (List.mem_cons_self _ _)
      simp [List.takeWhile_cons, ha,
        ih (fun x hx => h x (List.mem_cons_of_mem _ hx))]

/-- The final topic segment of a slash-free room id under the lobby
prefix is that room id. -/
theorem lastSegment_lobby (roomId : String)
    (h2 : ('/' : Char) ∉ roomId.data) :
    lastSegment ("darkmqtt/lobby/" ++ roomId) = roomId := by
  unfold lastSegment
  rw [String.data_append, List.reverse_append]
  have hall : ∀ c ∈ roomId.data.reverse,
      (fun c => decide (¬ c = '/')) c = true := by
    intro c hc
    simp only [decide_eq_true_eq]
    intro hcc
    subst hcc
    exact h2 (List.mem_reverse.mp hc)
  rw [takeWhile_append_all _ _ _ hall]
  have hpre : ("darkmqtt/lobby/".data.reverse.takeWhile
      (fun c => decide (¬ c = '/'))) = [] := by decide
  rw [hpre]
  simp

theorem jsStartsWith_append (p r : String) :
    jsStartsWith (p ++ r) p = true := by
  unfold jsStartsWith
  rw [String.data_append, List.isPrefixOf_iff_prefix]
  exact List.prefix_append _ _

/-- C10: a zero-length inbound payload on a lobby topic
`darkmqtt/lobby/{roomId}` is reported as exactly one room-list update
`{roomId, "", userCount := 0}`; on any non-lobby topic it invokes no
callback at all (so message, presence, reaction, config and vote state
are untouched); feeding that zero-count update to the App's
`onRoomListUpdate` removes exactly that roomId from the public-rooms
list. -/
theorem empty_payload_dispatch (roomId topic : String) (now : Nat)
    (rooms : List RoomInfo) (h1 : ¬ roomId = "")
    (h2 : ('/' : Char) ∉ roomId.data) :
    handleZeroLengthPayload ("darkmqtt/lobby/" ++ roomId)
      = [Callback.roomListUpdate
          { roomId := roomId, topicName := "", userCount := 0 }] ∧
    (jsStartsWith topic "darkmqtt/lobby/" = false →
      handleZeroLengthPayload topic = []) ∧
    appOnRoomListUpdate now
        { roomId := roomId, topicName := "", userCount := 0 } rooms
      = rooms.filter (fun r => ¬ r.id = roomId) ∧
    (∀ r ∈ appOnRoomListUpdate now
        { roomId := roomId, topicName := "", userCount := 0 } rooms,
      ¬ r.id = roomId) := by
  refine ⟨?_, ?_, ?_, ?_⟩
  · unfold handleZeroLengthPayload
    rw [lastSegment_lobby roomId h2]
    simp [jsStartsWith_append, h1]
  · intro h
    simp [handleZeroLengthPayload, h]
  · simp [appOnRoomListUpdate]
  · intro r hr
    simp only [appOnRoomListUpdate, le_refl, if_pos] at hr
    have := (List.mem_filter.mp hr).2
    simpa using this

/-- Witness for C10 at concrete inputs. -/
theorem empty_payload_dispatch_witness :
    handleZeroLengthPayload ("darkmqtt/lobby/" ++ "room1")
      = [Callback.roomListUpdate
          { roomId := "room1", topicName := "", userCount := 0 }] ∧
    handleZeroLengthPayload "darkmqtt/room/r1/messages" = [] ∧
    appOnRoomListUpdate 0
        { roomId := "room1", topicName := "", userCount := 0 }
        [roomInfoW]
      = [roomInfoW].filter (fun r => ¬ r.id = "room1") :=
  ⟨(empty_payload_dispatch "room1" "darkmqtt/room/r1/messages" 0
      [roomInfoW] (by decide) (by decide)).1,
   (empty_payload_dispatch "room1" "darkmqtt/room/r1/messages" 0
      [roomInfoW] (by decide) (by decide)).2.1 (by decide),
   (empty_payload_dispatch "room1" "darkmqtt/room/r1/messages" 0
      [roomInfoW] (by decide) (by decide)).2.2.1⟩

end MqttChat
